import Mathlib

/-!
Shallow embedding of the thread/process scheduler of meg-os/maystorm
(`src/system/kernel/src/task/scheduler.rs`).

Machine integers of the source are modelled as `Nat`/`Int`; the concurrent
FIFO queues are modelled as Lean lists with explicit capacities (front of the
list = front of the queue); the atomic read-modify-write sequences of the
source become sequential state passing. Fallible paths (`unwrap` on a missing
registry entry or on a full queue) are modelled with `Option`.
-/

namespace Maystorm

/-- Thread priority, from `enum Priority` in scheduler.rs
(Idle < Low < Normal < High < Realtime, the declaration order that the
derived `Ord` of the source uses). -/
inductive Priority
  | idle
  | low
  | normal
  | high
  | realtime
deriving DecidableEq, Repr

/-- The discriminant order used by the derived `PartialOrd`/`Ord`. -/
def Priority.toNat : Priority → Nat
  | .idle => 0
  | .low => 1
  | .normal => 2
  | .high => 3
  | .realtime => 4

instance : LT Priority := ⟨fun a b => a.toNat < b.toNat⟩

instance (a b : Priority) : Decidable (a < b) :=
  inferInstanceAs (Decidable (a.toNat < b.toNat))

/-- Interrupt request level, from `enum Irql` in scheduler.rs
(Passive < Apc < Dispatch < Device < IPI < High). -/
inductive Irql
  | passive
  | apc
  | dispatch
  | device
  | ipi
  | high
deriving DecidableEq, Repr

/-- The discriminant order used by the derived `PartialOrd`/`Ord`. -/
def Irql.toNat : Irql → Nat
  | .passive => 0
  | .apc => 1
  | .dispatch => 2
  | .device => 3
  | .ipi => 4
  | .high => 5

instance : LT Irql := ⟨fun a b => a.toNat < b.toNat⟩

instance (a b : Irql) : Decidable (a < b) :=
  inferInstanceAs (Decidable (a.toNat < b.toNat))

/-- Outcome of the IRQL operations: either the kernel faults with a
diagnostic (`panic!` in the source) or the operation succeeds. -/
inductive IrqlResult (α : Type)
  | fault (diagnostic : String)
  | ok (val : α)
deriving DecidableEq, Repr

/-- Embeds `LocalScheduler::raise_irql`: faults when the current level is above the
requested one, otherwise stores the new level and returns the old one.
Result carries (new current level, returned previous level). -/
def raiseIrql (current newIrql : Irql) : IrqlResult (Irql × Irql) :=
  if newIrql < current then .fault "IRQL_NOT_GREATER_OR_EQUAL"
  else .ok (newIrql, current)

/-- Embeds `LocalScheduler::lower_irql`: faults when the current level is below the
requested one, otherwise stores the new level. Result carries the new
current level. -/
def lowerIrql (current newIrql : Irql) : IrqlResult Irql :=
  if current < newIrql then .fault "IRQL_NOT_LESS_OR_EQUAL"
  else .ok newIrql

/-- Scheduler global state, from `enum SchedulerState` in scheduler.rs. -/
inductive SchedulerState
  | disabled
  | normal
  | fullThrottle
deriving DecidableEq, Repr

/-- Embeds `Scheduler::is_enabled`. -/
def isEnabled : SchedulerState → Bool
  | .disabled => false
  | _ => true

/-- Embeds `THRESHOLD_ENTER_MAX` in scheduler.rs. -/
def THRESHOLD_ENTER_MAX : Nat := 950

/-- Embeds `THRESHOLD_LEAVE_MAX` in scheduler.rs. -/
def THRESHOLD_LEAVE_MAX : Nat := 666

/-- The scheduler-state transition performed at the end of each pass of
`Scheduler::_statistics_thread`, as a function of the current state, the
clamped aggregate load `usage_total` and `num_of_performance_cpus`. -/
def schedulerStateStep (state : SchedulerState) (usageTotal perfCpus : Nat) :
    SchedulerState :=
  match state with
  | .disabled => .disabled
  | .normal =>
      if usageTotal > (perfCpus - 1) * 1000 + THRESHOLD_ENTER_MAX then
        .fullThrottle
      else .normal
  | .fullThrottle =>
      if usageTotal < perfCpus * THRESHOLD_LEAVE_MAX then .normal
      else .fullThrottle

/-- Modelled from the spec: the processor core kind (`ProcessorCoreType`,
declared in the `system` crate which is not part of the scheduler source):
"number of performance vs efficiency processors"; `sub` is an
efficiency core, `main` a performance core. -/
inductive ProcessorCoreType
  | main
  | sub
deriving DecidableEq, Repr

/-- Embeds `Scheduler::is_stalled_processor`: frozen, or an efficiency (`Sub`) core
while the scheduler state is not `FullThrottle`. -/
def isStalledProcessor (frozen : Bool) (state : SchedulerState)
    (core : ProcessorCoreType) : Bool :=
  frozen || (decide (state ≠ .fullThrottle) && decide (core = .sub))

/-- Embeds `Quantum` in scheduler.rs: a round-robin budget with a current value and
a reset default. -/
structure Quantum where
  current : Nat
  dflt : Nat
deriving DecidableEq, Repr

/-- Embeds `Quantum::consume`: decrement while above 1; once the budget is used up,
reload the default and report exhaustion. Sequential semantics of the CAS
loop of the source. -/
def Quantum.consume (q : Quantum) : Quantum × Bool :=
  if q.current > 1 then ({ q with current := q.current - 1 }, false)
  else ({ q with current := q.dflt }, true)

/-- Embeds `Quantum::from(priority)` in scheduler.rs. -/
def Quantum.fromPriority (p : Priority) : Quantum :=
  match p with
  | .high => ⟨25, 25⟩
  | .normal => ⟨10, 10⟩
  | .low => ⟨5, 5⟩
  | _ => ⟨1, 1⟩

/-- Embeds `SIZE_OF_SUB_QUEUE` in `Scheduler::start`: capacity of the realtime and
urgent queues. -/
def SIZE_OF_SUB_QUEUE : Nat := 63

/-- Embeds `SIZE_OF_MAIN_QUEUE` in `Scheduler::start`: capacity of the normal
queue. -/
def SIZE_OF_MAIN_QUEUE : Nat := 255

/-- Modelled from the spec: the bounded concurrent FIFO (`ConcurrentFifo`,
from the `sync` module which is not part of the scheduler source): "FIFO
order for the queue under concurrent producers/consumers with a fail-fast
bounded-capacity error". Enqueue appends at the back and fails when the
queue already holds `cap` elements. -/
def fifoEnqueue (cap : Nat) (q : List Nat) (x : Nat) : Option (List Nat) :=
  if q.length < cap then some (q ++ [x]) else none

/-- Modelled from the spec: dequeue of the bounded concurrent FIFO removes
from the front, returning `none` on an empty queue. -/
def fifoDequeue (q : List Nat) : Option (Nat × List Nat) :=
  match q with
  | [] => none
  | x :: rest => some (x, rest)

/-- The three run queues owned by `Scheduler` (`queue_realtime`,
`queue_urgent`, `queue_normal`), holding thread handles only. -/
structure QueueState where
  realtimeQ : List Nat
  urgentQ : List Nat
  normalQ : List Nat
deriving DecidableEq, Repr

/-- Embeds `Scheduler::_enqueue`: Realtime handles go to the realtime queue; High,
Normal and Low to the normal queue; Idle is `unreachable!` (modelled as
`none`, like a failed `unwrap`). -/
def enqueueThread (q : QueueState) (handle : Nat) (p : Priority) :
    Option QueueState :=
  match p with
  | .realtime =>
      (fifoEnqueue SIZE_OF_SUB_QUEUE q.realtimeQ handle).map
        (fun l => { q with realtimeQ := l })
  | .high | .normal | .low =>
      (fifoEnqueue SIZE_OF_MAIN_QUEUE q.normalQ handle).map
        (fun l => { q with normalQ := l })
  | .idle => none

/-- Thread-record fields of `ThreadContextData` that the run-queue logic
reads and writes: priority, the QUEUED and ZOMBIE attribute bits, and the
sleep counter. -/
structure ThreadRec where
  priority : Priority
  queued : Bool
  zombie : Bool
  sleepCounter : Int
deriving DecidableEq, Repr

/-- Embeds `ThreadContextData::is_asleep`. -/
def ThreadRec.isAsleep (t : ThreadRec) : Bool := t.sleepCounter > 0

/-- The thread registry (`ThreadPool`): a map from handle to record,
modelled as an association list. -/
abbrev Pool := List (Nat × ThreadRec)

/-- Registry lookup (`ThreadPool::get`). -/
def poolLookup (pool : Pool) (h : Nat) : Option ThreadRec :=
  match pool with
  | [] => none
  | (k, t) :: rest => if k = h then some t else poolLookup rest h

/-- Write back a thread record under its handle. -/
def poolUpdate (pool : Pool) (h : Nat) (t : ThreadRec) : Pool :=
  match pool with
  | [] => []
  | (k, u) :: rest =>
      if k = h then (k, t) :: rest else (k, u) :: poolUpdate rest h t

/-- Embeds `ThreadPool::remove`. -/
def poolRemove (pool : Pool) (h : Nat) : Pool :=
  match pool with
  | [] => []
  | (k, u) :: rest =>
      if k = h then poolRemove rest h else (k, u) :: poolRemove rest h

/-- Embeds `Scheduler::retire`: clear QUEUED; Idle threads are dropped silently;
ZOMBIE threads are removed from the registry; sleeping threads stay off the
queues; otherwise test-and-set QUEUED and enqueue when it was clear.
`none` models a kernel fault (missing registry entry, full queue, or the
`unreachable!` arm of `_enqueue`). -/
def retire (pool : Pool) (q : QueueState) (h : Nat) :
    Option (Pool × QueueState) :=
  match poolLookup pool h with
  | none => none
  | some t =>
      let t1 : ThreadRec := { t with queued := false }
      let pool1 := poolUpdate pool h t1
      if t1.priority = .idle then some (pool1, q)
      else if t1.zombie then some (poolRemove pool1 h, q)
      else if t1.isAsleep then some (pool1, q)
      else
        -- test_and_set(QUEUED): sets the bit, returns the previous value
        let wasQueued := t1.queued
        let pool2 := poolUpdate pool1 h { t1 with queued := true }
        if wasQueued then some (pool2, q)
        else (enqueueThread q h t1.priority).map (fun q2 => (pool2, q2))

/-- Embeds `Scheduler::add`: never queue Idle or ZOMBIE threads; otherwise
test-and-set QUEUED and enqueue when it was clear. -/
def addThread (pool : Pool) (q : QueueState) (h : Nat) :
    Option (Pool × QueueState) :=
  match poolLookup pool h with
  | none => none
  | some t =>
      if t.priority = .idle ∨ t.zombie then some (pool, q)
      else
        let wasQueued := t.queued
        let pool1 := poolUpdate pool h { t with queued := true }
        if wasQueued then some (pool1, q)
        else (enqueueThread q h t.priority).map (fun q2 => (pool1, q2))

/-- Embeds `Timer::is_just`: the zero deadline is the always-expired timer. -/
def timerIsJust (deadline : Int) : Bool := deadline = 0

/-- Embeds `Timer::is_alive`: a non-just deadline strictly in the future. -/
def timerIsAlive (deadline now : Int) : Bool :=
  if timerIsJust deadline then false else decide (deadline > now)

/-- Embeds `Timer::is_expired`. -/
def timerIsExpired (deadline now : Int) : Bool := !(timerIsAlive deadline now)

/-- Target picked by `Scheduler::_next_thread`: on a stalled processor the
local idle thread, otherwise a handle dequeued from a run queue. -/
inductive NextSel
  | idleThread
  | thread (h : Nat)
deriving DecidableEq, Repr

/-- Embeds `Scheduler::_next_thread`: a stalled processor gets its idle thread;
otherwise dequeue realtime, then urgent, then normal; `none` when every
queue is empty. Also returns the updated queues. -/
def nextThread (stalled : Bool) (q : QueueState) :
    Option (NextSel × QueueState) :=
  if stalled then some (.idleThread, q)
  else
    match fifoDequeue q.realtimeQ with
    | some (h, rest) => some (.thread h, { q with realtimeQ := rest })
    | none =>
        match fifoDequeue q.urgentQ with
        | some (h, rest) => some (.thread h, { q with urgentQ := rest })
        | none =>
            match fifoDequeue q.normalQ with
            | some (h, rest) => some (.thread h, { q with normalQ := rest })
            | none => none

/-- What a call to `Scheduler::reschedule` did: returned without requesting
any switch, called `switch_context` towards the local idle thread, or called
`switch_context` towards a dequeued handle. -/
inductive RescheduleAction
  | ret
  | switchIdle
  | switchTo (h : Nat)
deriving DecidableEq, Repr

/-- The processor-local and global state read by `Scheduler::reschedule`. -/
structure RescheduleInput where
  /-- global `SCHEDULER_STATE` -/
  schedState : SchedulerState
  /-- Embeds `Scheduler.is_frozen` -/
  frozen : Bool
  /-- core type of the calling processor, for `is_stalled_processor` -/
  coreType : ProcessorCoreType
  /-- priority of the outgoing (current) thread -/
  priority : Priority
  /-- quantum of the outgoing thread -/
  quantum : Quantum
  /-- the three run queues -/
  queues : QueueState
  /-- Embeds `Scheduler.next_timer` deadline -/
  nextTimer : Int
  /-- current value of the monotonic clock -/
  now : Int
deriving DecidableEq, Repr

/-- Result of one call to `Scheduler::reschedule`. -/
structure RescheduleResult where
  action : RescheduleAction
  queues : QueueState
  quantum : Quantum
  /-- whether `sem_timer` was signalled -/
  signaledTimer : Bool
deriving DecidableEq, Repr

/-- Embeds `Scheduler::reschedule`, lines 231-269 of scheduler.rs: return when
disabled; signal the timer thread when the pending deadline expired; frozen
forces a switch to idle; a Realtime outgoing thread returns immediately; a
stalled processor switches to idle; otherwise dequeue realtime first, then
urgent only when the outgoing priority is below High, then normal only when
below Normal; finally, if the quantum is exhausted by this call, round-robin
to `_next_thread` when it yields a candidate. -/
def reschedule (s : RescheduleInput) : RescheduleResult :=
  if !(isEnabled s.schedState) then
    ⟨.ret, s.queues, s.quantum, false⟩
  else
    let signaled := timerIsExpired s.nextTimer s.now
    if s.frozen then ⟨.switchIdle, s.queues, s.quantum, signaled⟩
    else if s.priority = .realtime then ⟨.ret, s.queues, s.quantum, signaled⟩
    else if isStalledProcessor s.frozen s.schedState s.coreType then
      ⟨.switchIdle, s.queues, s.quantum, signaled⟩
    else
      match fifoDequeue s.queues.realtimeQ with
      | some (h, rest) =>
          ⟨.switchTo h, { s.queues with realtimeQ := rest }, s.quantum,
            signaled⟩
      | none =>
          match (if s.priority < .high then fifoDequeue s.queues.urgentQ
                 else none) with
          | some (h, rest) =>
              ⟨.switchTo h, { s.queues with urgentQ := rest }, s.quantum,
                signaled⟩
          | none =>
              match (if s.priority < .normal then
                       fifoDequeue s.queues.normalQ
                     else none) with
              | some (h, rest) =>
                  ⟨.switchTo h, { s.queues with normalQ := rest }, s.quantum,
                    signaled⟩
              | none =>
                  let c := s.quantum.consume
                  if c.2 then
                    match nextThread
                        (isStalledProcessor s.frozen s.schedState s.coreType)
                        s.queues with
                    | some (.idleThread, q2) => ⟨.switchIdle, q2, c.1, signaled⟩
                    | some (.thread h, q2) => ⟨.switchTo h, q2, c.1, signaled⟩
                    | none => ⟨.ret, s.queues, c.1, signaled⟩
                  else ⟨.ret, s.queues, c.1, signaled⟩

/-- The payload of a `TimerEvent` (`enum TimerType`): wake a thread, signal
an async semaphore, or post a window timer message. Handles are plain
numbers. -/
inductive TimerType
  | oneShot (thread : Nat)
  | asyncSem (sem : Nat)
  | window (window : Nat) (timerId : Nat)
deriving DecidableEq, Repr

/-- Embeds `TimerEvent`: a deadline (a `TimeSpec`, i.e. a signed tick count) plus a
payload. -/
structure TimerEvent where
  deadline : Int
  timerType : TimerType
deriving DecidableEq, Repr

/-- Embeds `TimerEvent::is_alive`. -/
def TimerEvent.isAlive (e : TimerEvent) (now : Int) : Bool :=
  timerIsAlive e.deadline now

/-- The deadline order the timer thread sorts by (`sort_by_key` on
`timer.deadline`). -/
def timerLe (a b : TimerEvent) : Prop := a.deadline ≤ b.deadline

instance : DecidableRel timerLe := fun a b =>
  inferInstanceAs (Decidable (a.deadline ≤ b.deadline))

/-- The drain step of one iteration of `Scheduler::_scheduler_thread`: when
at least one pending event was dequeued, push all pending events onto the
in-memory list and sort it by deadline (`Vec::sort_by_key`, a stable sort,
modelled by the stable `List.insertionSort`); with no pending event the list
is left as it is. -/
def timerDrain (events pending : List TimerEvent) : List TimerEvent :=
  match pending with
  | [] => events
  | _ => List.insertionSort (fun a b => a.deadline ≤ b.deadline)
      (events ++ pending)

/-- The firing loop of `Scheduler::_scheduler_thread`: repeatedly remove the
front event while it is no longer alive and fire it; stop at the first event
still alive. Returns (events fired in order, remaining list). -/
def fireExpired (now : Int) : List TimerEvent →
    List TimerEvent × List TimerEvent
  | [] => ([], [])
  | e :: rest =>
      if e.isAlive now then ([], e :: rest)
      else
        let p := fireExpired now rest
        (e :: p.1, p.2)

/-- Embeds `expect` in `Scheduler::_statistics_thread`: the nominal sampling
interval, 1_000_000 ticks (one second). -/
def STAT_EXPECT : Nat := 1000000

/-- The per-thread load computed by `Scheduler::_statistics_thread`:
`min(load0 * expect / (actual * 1000), 1000)` where `load0` is the raw busy
tick counter (swapped to zero) and `actual` the measured elapsed ticks. -/
def threadLoad (load0 actual : Nat) : Nat :=
  min (load0 * STAT_EXPECT / (actual * 1000)) 1000

/-- The per-thread load as the spec sentence words it:
`min(1000, raw_busy_ticks * 1_000_000 / actual_interval_ticks)`. -/
def specThreadLoad (load0 actual : Nat) : Nat :=
  min 1000 (load0 * 1000000 / actual)

/-- The per-thread inputs of one statistics pass: the raw busy counter and
the thread's priority. -/
structure StatThread where
  load0 : Nat
  priority : Priority
deriving DecidableEq, Repr

/-- The `usage` accumulator of `Scheduler::_statistics_thread`: sum of the
computed loads over the non-Idle threads. -/
def statUsage (threads : List StatThread) (actual : Nat) : Nat :=
  threads.foldl
    (fun acc t =>
      if t.priority = .idle then acc else acc + threadLoad t.load0 actual)
    0

/-- Embeds `usage_total` stored by the statistics pass:
`min(usage, num_cpu * 1000)`. -/
def statUsageTotal (threads : List StatThread) (actual numCpu : Nat) : Nat :=
  min (statUsage threads actual) (numCpu * 1000)

/-- Embeds `usage` (per-cpu) stored by the statistics pass:
`min(usage / num_cpu, 1000)`. -/
def statUsagePerCpu (threads : List StatThread) (actual numCpu : Nat) : Nat :=
  min (statUsage threads actual / numCpu) 1000

/-- Rust `{:w}` formatting of a nonnegative integer: decimal digits,
right-aligned, space-padded to a minimum width `w`. -/
def natPad (w n : Nat) : String :=
  let s := toString n
  if s.length < w then String.mk (List.replicate (w - s.length) ' ') ++ s
  else s

/-- The %CPU field written by `Scheduler::print_statistics` for one process,
as a function of the already-clamped load (in per-mille): with
`load1 = load / 10` and `load0 = load % 10`, emit `" {:4}"` of `load1` when
`load1 >= 10`, else `" {:2}.{:1}"` of `load1` and `load0`. -/
def formatCpuLoad (load : Nat) : String :=
  let load0 := load % 10
  let load1 := load / 10
  if load1 ≥ 10 then " " ++ natPad 4 load1
  else " " ++ natPad 2 load1 ++ "." ++ natPad 1 load0

/-- The %CPU field for a process including the clamp of line 588:
`min(process.load, 1000 * num_cpu)`. -/
def processCpuField (rawLoad numCpu : Nat) : String :=
  formatCpuLoad (min rawLoad (1000 * numCpu))

/-- The process-side effects of `ThreadContextData::exit` (lines 1622-1625)
together with `ProcessContextData::exit` (lines 1414-1417): observable as
(number of signals sent to the process join semaphore, whether the process
is still in the registry, new thread count). -/
structure ExitEffects where
  procSemSignals : Nat
  procInRegistry : Bool
  nThreadsAfter : Nat
deriving DecidableEq, Repr

/-- The thread-exit step on the owning process: `fetch_sub(1)` on the live
thread count; when the previous count was exactly 1, `process.exit()` runs,
signalling the join semaphore once and removing the process from the
registry. -/
def threadExitProcess (nThreads : Nat) (inRegistry : Bool) : ExitEffects :=
  let old := nThreads
  if old = 1 then ⟨1, false, old - 1⟩
  else ⟨0, inRegistry, old - 1⟩

/-- Global scheduler state observed by the run-queue operations: the thread
registry and the three run queues. -/
structure KState where
  pool : Pool
  queues : QueueState
deriving DecidableEq, Repr

/-- The state right after `Scheduler::start`: the three queues are created
empty; the registry holds whatever threads exist (idle threads are added to
the registry but never to a queue). -/
def initState (pool : Pool) : KState :=
  { pool := pool, queues := ⟨[], [], []⟩ }

/-- One step of the scheduler, covering every operation of scheduler.rs that
touches a run queue — the only enqueues are `Scheduler::_enqueue` reached
from `retire` and `add`, and the only dequeues are those of `reschedule` and
`_next_thread` — plus arbitrary registry-only mutation (spawn, attribute
and sleep-counter changes), which leaves the queues alone. -/
inductive SchedStep : KState → KState → Prop
  | retireStep (s : KState) (h : Nat) (p2 : Pool) (q2 : QueueState) :
      retire s.pool s.queues h = some (p2, q2) →
      SchedStep s ⟨p2, q2⟩
  | addStep (s : KState) (h : Nat) (p2 : Pool) (q2 : QueueState) :
      addThread s.pool s.queues h = some (p2, q2) →
      SchedStep s ⟨p2, q2⟩
  | dequeueRealtime (s : KState) (h : Nat) (rest : List Nat) :
      fifoDequeue s.queues.realtimeQ = some (h, rest) →
      SchedStep s ⟨s.pool, { s.queues with realtimeQ := rest }⟩
  | dequeueUrgent (s : KState) (h : Nat) (rest : List Nat) :
      fifoDequeue s.queues.urgentQ = some (h, rest) →
      SchedStep s ⟨s.pool, { s.queues with urgentQ := rest }⟩
  | dequeueNormal (s : KState) (h : Nat) (rest : List Nat) :
      fifoDequeue s.queues.normalQ = some (h, rest) →
      SchedStep s ⟨s.pool, { s.queues with normalQ := rest }⟩
  | poolStep (s : KState) (p2 : Pool) :
      SchedStep s ⟨p2, s.queues⟩

/-- The scheduler states reachable from a post-`Scheduler::start` state. -/
inductive Reachable : KState → Prop
  | init (pool : Pool) : Reachable (initState pool)
  | step {s s2 : KState} : Reachable s → SchedStep s s2 → Reachable s2

/-! ## Theorems -/

/-- C4: `raise_irql(new)` faults with the "not greater or equal" diagnostic
iff `new` is strictly below the current level, otherwise sets the level to
`new` and returns the previous level; `lower_irql(new)` faults with the
"not less or equal" diagnostic iff `new` is strictly above the current
level, otherwise sets the level to `new`. In particular raise(Dispatch)
then raise(Passive) faults, while raise(Dispatch), lower(Dispatch),
lower(Passive) succeeds. -/
theorem irql_raise_lower_contract :
    (∀ cur nu : Irql,
      (nu < cur → raiseIrql cur nu = .fault "IRQL_NOT_GREATER_OR_EQUAL") ∧
      (¬ nu < cur → raiseIrql cur nu = .ok (nu, cur))) ∧
    (∀ cur nu : Irql,
      (cur < nu → lowerIrql cur nu = .fault "IRQL_NOT_LESS_OR_EQUAL") ∧
      (¬ cur < nu → lowerIrql cur nu = .ok nu)) ∧
    (raiseIrql .passive .dispatch = .ok (.dispatch, .passive) ∧
      raiseIrql .dispatch .passive = .fault "IRQL_NOT_GREATER_OR_EQUAL") ∧
    (lowerIrql .dispatch .dispatch = .ok .dispatch ∧
      lowerIrql .dispatch .passive = .ok .passive) := by
  refine ⟨fun cur nu => ⟨fun h => ?_, fun h => ?_⟩,
    fun cur nu => ⟨fun h => ?_, fun h => ?_⟩,
    ⟨by decide, by decide⟩, ⟨by decide, by decide⟩⟩
  · simp only [raiseIrql, if_pos h]
  · simp only [raiseIrql, if_neg h]
  · simp only [lowerIrql, if_pos h]
  · simp only [lowerIrql, if_neg h]

/-- Witness for C4 at a concrete input: raising from Passive to Dispatch
succeeds, and from Dispatch to Passive faults. -/
theorem irql_raise_lower_contract_witness :
    raiseIrql .passive .dispatch = .ok (.dispatch, .passive) ∧
    raiseIrql .dispatch .passive = .fault "IRQL_NOT_GREATER_OR_EQUAL" :=
  ⟨(irql_raise_lower_contract.1 Irql.passive Irql.dispatch).2 (by decide),
    (irql_raise_lower_contract.1 Irql.dispatch Irql.passive).1 (by decide)⟩

/-- C5: with at least one performance core, the statistics-pass state step
moves Normal to FullThrottle iff the aggregate load exceeds
`(perfCpus - 1) * 1000 + 950`, moves FullThrottle back to Normal iff the
aggregate load is below `perfCpus * 666`, and for loads strictly between
the two thresholds performs no transition in either state. -/
theorem scheduler_state_hysteresis (u p : Nat) (_hp : 1 ≤ p) :
    (schedulerStateStep .normal u p = .fullThrottle ↔
      u > (p - 1) * 1000 + THRESHOLD_ENTER_MAX) ∧
    (schedulerStateStep .fullThrottle u p = .normal ↔
      u < p * THRESHOLD_LEAVE_MAX) ∧
    (p * THRESHOLD_LEAVE_MAX < u →
      u < (p - 1) * 1000 + THRESHOLD_ENTER_MAX →
      schedulerStateStep .normal u p = .normal ∧
      schedulerStateStep .fullThrottle u p = .fullThrottle) := by
  refine ⟨?_, ?_, fun hlo hhi => ⟨?_, ?_⟩⟩
  · by_cases h : u > (p - 1) * 1000 + THRESHOLD_ENTER_MAX <;>
      simp [schedulerStateStep, h]
  · by_cases h : u < p * THRESHOLD_LEAVE_MAX <;>
      simp [schedulerStateStep, h]
  · simp [schedulerStateStep, Nat.not_lt.mpr (Nat.le_of_lt hhi)]
  · simp [schedulerStateStep, Nat.not_lt.mpr (Nat.le_of_lt hlo)]

/-- Witness for C5 at one performance core: load 960 flips Normal to
FullThrottle, load 600 flips FullThrottle to Normal, and load 800 (strictly
between 666 and 950) moves neither state. -/
theorem scheduler_state_hysteresis_witness :
    (schedulerStateStep .normal 960 1 = .fullThrottle ↔ 960 > 950) ∧
    (schedulerStateStep .normal 800 1 = .normal ∧
      schedulerStateStep .fullThrottle 800 1 = .fullThrottle) :=
  ⟨(scheduler_state_hysteresis 960 1 (by decide)).1,
    (scheduler_state_hysteresis 800 1 (by decide)).2.2 (by decide)
      (by decide)⟩

/-- C6: an exiting thread whose process had exactly one live thread signals
the process join semaphore exactly once and removes the process from the
registry; an exit that leaves the count above zero signals nothing and
leaves the process registered. -/
theorem process_reaped_on_last_exit (n : Nat) (hn : 1 ≤ n) :
    ((threadExitProcess n true).procSemSignals = 1 ∧
      (threadExitProcess n true).procInRegistry = false ↔ n = 1) ∧
    ((threadExitProcess n true).nThreadsAfter = n - 1) ∧
    (1 < n →
      (threadExitProcess n true).procSemSignals = 0 ∧
      (threadExitProcess n true).procInRegistry = true ∧
      0 < (threadExitProcess n true).nThreadsAfter) := by
  by_cases h : n = 1
  · subst h
    exact ⟨by simp [threadExitProcess], by simp [threadExitProcess],
      fun h1 => absurd h1 (by decide)⟩
  · refine ⟨by simp [threadExitProcess, h], by simp [threadExitProcess, h],
      fun h1 => ⟨by simp [threadExitProcess, h], by simp [threadExitProcess, h],
        ?_⟩⟩
    have : 2 ≤ n := h1
    simp [threadExitProcess, h]
    omega

/-- Witness for C6: with two live threads the exit leaves the process
registered and unsignalled; with one it reaps it. -/
theorem process_reaped_on_last_exit_witness :
    ((threadExitProcess 1 true).procSemSignals = 1 ∧
      (threadExitProcess 1 true).procInRegistry = false ↔ 1 = 1) ∧
    (1 < 2 →
      (threadExitProcess 2 true).procSemSignals = 0 ∧
      (threadExitProcess 2 true).procInRegistry = true ∧
      0 < (threadExitProcess 2 true).nThreadsAfter) :=
  ⟨(process_reaped_on_last_exit 1 (by decide)).1,
    (process_reaped_on_last_exit 2 (by decide)).2.2⟩

/-- C2: on an enabled, non-frozen scheduler, a Realtime outgoing thread
makes `reschedule` return immediately: no run queue is dequeued, no context
switch is requested, and the quantum is untouched (at most the timer thread
may have been signalled). -/
theorem realtime_never_preempted (s : RescheduleInput)
    (hen : isEnabled s.schedState = true) (hfr : s.frozen = false)
    (hrt : s.priority = .realtime) :
    reschedule s =
      ⟨.ret, s.queues, s.quantum, timerIsExpired s.nextTimer s.now⟩ := by
  simp [reschedule, hen, hfr, hrt]

/-- Witness for C2 at a concrete input with all three queues nonempty: the
queues come back untouched and no switch is requested. -/
theorem realtime_never_preempted_witness :
    reschedule
        ⟨.normal, false, .main, .realtime, ⟨1, 1⟩, ⟨[5], [6], [7]⟩, 0, 0⟩ =
      ⟨.ret, ⟨[5], [6], [7]⟩, ⟨1, 1⟩, true⟩ :=
  realtime_never_preempted
    ⟨.normal, false, .main, .realtime, ⟨1, 1⟩, ⟨[5], [6], [7]⟩, 0, 0⟩
    rfl rfl rfl

theorem fifoDequeue_nil : fifoDequeue [] = none := rfl

theorem fifoDequeue_cons (x : Nat) (l : List Nat) :
    fifoDequeue (x :: l) = some (x, l) := rfl

/-- C1: on an enabled, non-frozen, non-stalled processor whose outgoing
thread is not Realtime, `reschedule` dequeues in strict priority order:
(a) the realtime queue first, unconditionally; (b) the urgent queue only
when the outgoing priority is below High; (c) the normal queue only when
the outgoing priority is below Normal; (d) when all of those yield no
candidate, the quantum is consumed, and only if that exhausts it does
`reschedule` round-robin to the next queued thread, if any. -/
theorem reschedule_priority_order (s : RescheduleInput)
    (hen : isEnabled s.schedState = true) (hfr : s.frozen = false)
    (hst : isStalledProcessor s.frozen s.schedState s.coreType = false)
    (hrt : s.priority ≠ .realtime) :
    (∀ h t, s.queues.realtimeQ = h :: t →
      reschedule s = ⟨.switchTo h, { s.queues with realtimeQ := t },
        s.quantum, timerIsExpired s.nextTimer s.now⟩) ∧
    (s.queues.realtimeQ = [] → s.priority < .high →
      ∀ h t, s.queues.urgentQ = h :: t →
        reschedule s = ⟨.switchTo h, { s.queues with urgentQ := t },
          s.quantum, timerIsExpired s.nextTimer s.now⟩) ∧
    (s.queues.realtimeQ = [] → (s.priority < .high → s.queues.urgentQ = []) →
      s.priority < .normal →
      ∀ h t, s.queues.normalQ = h :: t →
        reschedule s = ⟨.switchTo h, { s.queues with normalQ := t },
          s.quantum, timerIsExpired s.nextTimer s.now⟩) ∧
    (s.queues.realtimeQ = [] → (s.priority < .high → s.queues.urgentQ = []) →
      (s.priority < .normal → s.queues.normalQ = []) →
      (s.quantum.consume.2 = false →
        reschedule s = ⟨.ret, s.queues, s.quantum.consume.1,
          timerIsExpired s.nextTimer s.now⟩) ∧
      (s.quantum.consume.2 = true →
        (nextThread false s.queues = none →
          reschedule s = ⟨.ret, s.queues, s.quantum.consume.1,
            timerIsExpired s.nextTimer s.now⟩) ∧
        (∀ h q2, nextThread false s.queues = some (.thread h, q2) →
          reschedule s = ⟨.switchTo h, q2, s.quantum.consume.1,
            timerIsExpired s.nextTimer s.now⟩))) := by
  have hst2 : isStalledProcessor false s.schedState s.coreType = false :=
    hfr ▸ hst
  refine ⟨fun h t hq => ?_, fun hr hlt h t hq => ?_,
    fun hr hu hlt h t hq => ?_, fun hr hu hn => ⟨fun hc => ?_,
      fun hc => ⟨fun hnone => ?_, fun h q2 hsome => ?_⟩⟩⟩
  · simp [reschedule, hen, hfr, hrt, hst2, hq, fifoDequeue_cons]
  · simp [reschedule, hen, hfr, hrt, hst2, hr, hlt, hq, fifoDequeue_nil,
      fifoDequeue_cons]
  · have hu2 : (if s.priority < .high then fifoDequeue s.queues.urgentQ
        else none) = none := by
      by_cases hb : s.priority < .high
      · simp [hb, hu hb, fifoDequeue_nil]
      · simp [hb]
    simp [reschedule, hen, hfr, hrt, hst2, hr, hu2, hlt, hq,
      fifoDequeue_nil, fifoDequeue_cons]
  · have hu2 : (if s.priority < .high then fifoDequeue s.queues.urgentQ
        else none) = none := by
      by_cases hb : s.priority < .high
      · simp [hb, hu hb, fifoDequeue_nil]
      · simp [hb]
    have hn2 : (if s.priority < .normal then fifoDequeue s.queues.normalQ
        else none) = none := by
      by_cases hb : s.priority < .normal
      · simp [hb, hn hb, fifoDequeue_nil]
      · simp [hb]
    simp [reschedule, hen, hfr, hrt, hst2, hr, hu2, hn2, hc,
      fifoDequeue_nil]
  · have hu2 : (if s.priority < .high then fifoDequeue s.queues.urgentQ
        else none) = none := by
      by_cases hb : s.priority < .high
      · simp [hb, hu hb, fifoDequeue_nil]
      · simp [hb]
    have hn2 : (if s.priority < .normal then fifoDequeue s.queues.normalQ
        else none) = none := by
      by_cases hb : s.priority < .normal
      · simp [hb, hn hb, fifoDequeue_nil]
      · simp [hb]
    simp [reschedule, hen, hfr, hrt, hst2, hr, hu2, hn2, hc, hnone,
      fifoDequeue_nil]
  · have hu2 : (if s.priority < .high then fifoDequeue s.queues.urgentQ
        else none) = none := by
      by_cases hb : s.priority < .high
      · simp [hb, hu hb, fifoDequeue_nil]
      · simp [hb]
    have hn2 : (if s.priority < .normal then fifoDequeue s.queues.normalQ
        else none) = none := by
      by_cases hb : s.priority < .normal
      · simp [hb, hn hb, fifoDequeue_nil]
      · simp [hb]
    simp [reschedule, hen, hfr, hrt, hst2, hr, hu2, hn2, hc, hsome,
      fifoDequeue_nil]

/-- Witness for C1 at a concrete input: a Normal outgoing thread on a
non-stalled performance core with the urgent queue nonempty takes the
urgent candidate. -/
theorem reschedule_priority_order_witness :
    reschedule ⟨.normal, false, .main, .normal, ⟨2, 10⟩, ⟨[], [6], [7]⟩,
        1, 0⟩ =
      ⟨.switchTo 6, ⟨[], [], [7]⟩, ⟨2, 10⟩, false⟩ :=
  (reschedule_priority_order
      ⟨.normal, false, .main, .normal, ⟨2, 10⟩, ⟨[], [6], [7]⟩, 1, 0⟩
      rfl rfl rfl (by decide)).2.1 rfl (by decide) 6 [] rfl

/-- C3: `retire` on a registered thread clears QUEUED; an Idle thread gets
nothing else; a ZOMBIE thread is removed from the registry; a sleeping
thread is left off all run queues; otherwise the thread is enqueued onto
the run queue matching its priority band (Realtime on the realtime queue,
High/Normal/Low on the normal queue), the test-and-set leaving QUEUED
set. -/
theorem retire_clears_queued_and_requeues (pool : Pool) (q : QueueState)
    (h : Nat) (t : ThreadRec) (hl : poolLookup pool h = some t) :
    (t.priority = .idle →
      retire pool q h =
        some (poolUpdate pool h { t with queued := false }, q)) ∧
    (t.priority ≠ .idle → t.zombie = true →
      retire pool q h =
        some (poolRemove (poolUpdate pool h { t with queued := false }) h,
          q)) ∧
    (t.priority ≠ .idle → t.zombie = false → t.sleepCounter > 0 →
      retire pool q h =
        some (poolUpdate pool h { t with queued := false }, q)) ∧
    (t.priority ≠ .idle → t.zombie = false → ¬ t.sleepCounter > 0 →
      (t.priority = .realtime → q.realtimeQ.length < SIZE_OF_SUB_QUEUE →
        retire pool q h =
          some (poolUpdate (poolUpdate pool h { t with queued := false }) h
              { t with queued := true },
            { q with realtimeQ := q.realtimeQ ++ [h] })) ∧
      (t.priority = .high ∨ t.priority = .normal ∨ t.priority = .low →
        q.normalQ.length < SIZE_OF_MAIN_QUEUE →
        retire pool q h =
          some (poolUpdate (poolUpdate pool h { t with queued := false }) h
              { t with queued := true },
            { q with normalQ := q.normalQ ++ [h] }))) := by
  refine ⟨fun hidle => ?_, fun hidle hz => ?_, fun hidle hz hs => ?_,
    fun hidle hz hs => ⟨fun hrt hcap => ?_, fun hband hcap => ?_⟩⟩
  · simp [retire, hl, ThreadRec.isAsleep, hidle]
  · simp [retire, hl, ThreadRec.isAsleep, hidle, hz]
  · simp [retire, hl, ThreadRec.isAsleep, hidle, hz, hs]
  · simp [retire, hl, ThreadRec.isAsleep, hidle, hz, hs, hrt,
      enqueueThread, fifoEnqueue, hcap]
  · rcases hband with hb | hb | hb <;>
      simp [retire, hl, ThreadRec.isAsleep, hidle, hz, hs, hb,
        enqueueThread, fifoEnqueue, hcap]

/-- Witness for C3: a registered Normal-priority runnable thread is
re-queued onto the normal queue with QUEUED set. -/
theorem retire_clears_queued_and_requeues_witness :
    retire [(1, ⟨Priority.normal, true, false, 0⟩)] ⟨[], [], []⟩ 1 =
      some ([(1, ⟨Priority.normal, true, false, 0⟩)], ⟨[], [], [1]⟩) := by
  have step := ((retire_clears_queued_and_requeues
      [(1, ⟨Priority.normal, true, false, 0⟩)] ⟨[], [], []⟩ 1
      ⟨Priority.normal, true, false, 0⟩ rfl).2.2.2
      (by decide) rfl (by decide)).2 (Or.inr (Or.inl rfl)) (by decide)
  exact step.trans (by decide)

theorem enqueueThread_urgentQ (q : QueueState) (h : Nat) (p : Priority)
    (q2 : QueueState) (he : enqueueThread q h p = some q2) :
    q2.urgentQ = q.urgentQ := by
  cases p <;> simp only [enqueueThread] at he
  case idle => exact Option.noConfusion he
  all_goals
    rcases Option.map_eq_some'.mp he with ⟨l2, _, rfl⟩
    rfl

theorem retire_urgentQ (pool : Pool) (q : QueueState) (h : Nat) (p2 : Pool)
    (q2 : QueueState) (hr : retire pool q h = some (p2, q2)) :
    q2.urgentQ = q.urgentQ := by
  simp only [retire] at hr
  rcases hl : poolLookup pool h with _ | t
  · rw [hl] at hr; exact Option.noConfusion hr
  · rw [hl] at hr
    repeat' split at hr
    all_goals first
      | (exact Option.noConfusion hr)
      | (cases hr; rfl)
      | (rcases Option.map_eq_some'.mp hr with ⟨qq, hqq, heq⟩
         injection heq with h1 h2
         subst h1; subst h2
         exact enqueueThread_urgentQ _ _ _ _ hqq)

theorem addThread_urgentQ (pool : Pool) (q : QueueState) (h : Nat)
    (p2 : Pool) (q2 : QueueState)
    (ha : addThread pool q h = some (p2, q2)) : q2.urgentQ = q.urgentQ := by
  simp only [addThread] at ha
  rcases hl : poolLookup pool h with _ | t
  · rw [hl] at ha; exact Option.noConfusion ha
  · rw [hl] at ha
    repeat' split at ha
    all_goals first
      | (exact Option.noConfusion ha)
      | (cases ha; rfl)
      | (rcases Option.map_eq_some'.mp ha with ⟨qq, hqq, heq⟩
         injection heq with h1 h2
         subst h1; subst h2
         exact enqueueThread_urgentQ _ _ _ _ hqq)

/-- C10: in every reachable scheduler state the urgent run queue is empty —
`_enqueue` only ever targets the realtime and normal queues — and so the
urgent-queue dequeue attempted by `reschedule` and `_next_thread` always
comes back empty. -/
theorem urgent_queue_always_empty (s : KState) (hr : Reachable s) :
    s.queues.urgentQ = [] ∧ fifoDequeue s.queues.urgentQ = none := by
  have main : s.queues.urgentQ = [] := by
    induction hr with
    | init pool => rfl
    | step _ hstep ih =>
      cases hstep with
      | retireStep h p2 q2 hre =>
          exact (retire_urgentQ _ _ _ _ _ hre).trans ih
      | addStep h p2 q2 ha =>
          exact (addThread_urgentQ _ _ _ _ _ ha).trans ih
      | dequeueRealtime h rest hd => exact ih
      | dequeueUrgent h rest hd =>
          rw [ih] at hd
          exact Option.noConfusion hd
      | dequeueNormal h rest hd => exact ih
      | poolStep p2 => exact ih
  exact ⟨main, by rw [main]; rfl⟩

/-- Witness for C10: the post-start state itself is reachable and has an
empty urgent queue yielding no candidate. -/
theorem urgent_queue_always_empty_witness :
    Reachable (initState []) ∧
      (initState []).queues.urgentQ = [] ∧
      fifoDequeue (initState []).queues.urgentQ = none :=
  ⟨Reachable.init [], urgent_queue_always_empty (initState [])
    (Reachable.init [])⟩

instance : IsTotal TimerEvent (fun a b => a.deadline ≤ b.deadline) :=
  ⟨fun a b => Int.le_total a.deadline b.deadline⟩

instance : IsTrans TimerEvent (fun a b => a.deadline ≤ b.deadline) :=
  ⟨fun _ _ _ => Int.le_trans⟩

theorem timerIsAlive_eq_true (d now : Int) :
    timerIsAlive d now = true ↔ d ≠ 0 ∧ now < d := by
  unfold timerIsAlive timerIsJust
  split <;> simp_all

theorem fireExpired_append (now : Int) :
    ∀ l : List TimerEvent, l = (fireExpired now l).1 ++ (fireExpired now l).2
  | [] => rfl
  | e :: rest => by
    unfold fireExpired
    split
    · rfl
    · simpa using fireExpired_append now rest

theorem fireExpired_fired_expired (now : Int) :
    ∀ l : List TimerEvent, ∀ e ∈ (fireExpired now l).1,
      e.isAlive now = false
  | [] => by simp [fireExpired]
  | e :: rest => by
    unfold fireExpired
    split
    · simp
    · intro x hx
      rcases List.mem_cons.mp hx with hx | hx
      · subst hx
        simp_all
      · exact fireExpired_fired_expired now rest x hx

theorem fireExpired_rest_alive (now : Int) (hnow : 0 ≤ now) :
    ∀ l : List TimerEvent,
      List.Sorted (fun a b : TimerEvent => a.deadline ≤ b.deadline) l →
      ∀ e ∈ (fireExpired now l).2, e.isAlive now = true
  | [] => by simp [fireExpired]
  | e :: rest => by
    intro hs x hx
    rw [List.sorted_cons] at hs
    by_cases halive : e.isAlive now = true
    · simp only [fireExpired, halive, if_true] at hx
      rcases List.mem_cons.mp hx with hx | hx
      · subst hx; exact halive
      · have h1 := (timerIsAlive_eq_true e.deadline now).mp halive
        have h2 : e.deadline ≤ x.deadline := hs.1 x hx
        exact (timerIsAlive_eq_true x.deadline now).mpr
          ⟨by omega, by omega⟩
    · have hfalse : e.isAlive now = false := by
        simpa using halive
      simp only [fireExpired, hfalse, if_false] at hx
      exact fireExpired_rest_alive now hnow rest hs.2 x hx

/-- C7: in each iteration of the timer thread that drained at least one
pending event, the in-memory list is sorted by deadline after the drain,
and the firing pass removes exactly the expired events from the front, in
nondecreasing deadline order, firing every expired event before any event
of later deadline; all remaining events are still alive. -/
theorem timer_batch_fires_in_deadline_order (events pending : List TimerEvent)
    (now : Int) (hpend : pending ≠ []) (hnow : 0 ≤ now) :
    List.Sorted (fun a b : TimerEvent => a.deadline ≤ b.deadline)
      (timerDrain events pending) ∧
    timerDrain events pending =
      (fireExpired now (timerDrain events pending)).1 ++
        (fireExpired now (timerDrain events pending)).2 ∧
    List.Sorted (fun a b : TimerEvent => a.deadline ≤ b.deadline)
      (fireExpired now (timerDrain events pending)).1 ∧
    (∀ e ∈ (fireExpired now (timerDrain events pending)).1,
      e.isAlive now = false) ∧
    (∀ e ∈ (fireExpired now (timerDrain events pending)).2,
      e.isAlive now = true) ∧
    (∀ a ∈ (fireExpired now (timerDrain events pending)).1,
      ∀ b ∈ (fireExpired now (timerDrain events pending)).2,
        a.deadline ≤ b.deadline) := by
  have hsorted : List.Sorted (fun a b : TimerEvent => a.deadline ≤ b.deadline)
      (timerDrain events pending) := by
    obtain ⟨p, ps, rfl⟩ := List.exists_cons_of_ne_nil hpend
    exact List.sorted_insertionSort _ _
  have happ := fireExpired_append now (timerDrain events pending)
  have hpw : List.Pairwise (fun a b : TimerEvent => a.deadline ≤ b.deadline)
      ((fireExpired now (timerDrain events pending)).1 ++
        (fireExpired now (timerDrain events pending)).2) := happ ▸ hsorted
  rcases List.pairwise_append.mp hpw with ⟨hp1, _, hcross⟩
  exact ⟨hsorted, happ, hp1, fireExpired_fired_expired now _,
    fireExpired_rest_alive now hnow _ hsorted, hcross⟩

/-- Witness for C7: events registered with deadlines 110, 20, 60 (i.e.
T+100ms, T+10ms, T+50ms around T = 10) fire in the order 20, 60, 110 once
the clock reaches 110, leaving the list empty. -/
theorem timer_batch_fires_in_deadline_order_witness :
    (fireExpired 110
        (timerDrain [] [⟨110, .oneShot 1⟩, ⟨20, .oneShot 2⟩,
          ⟨60, .oneShot 3⟩])).1 =
      [⟨20, .oneShot 2⟩, ⟨60, .oneShot 3⟩, ⟨110, .oneShot 1⟩] ∧
    (∀ e ∈ (fireExpired 110
        (timerDrain [] [⟨110, .oneShot 1⟩, ⟨20, .oneShot 2⟩,
          ⟨60, .oneShot 3⟩])).1, e.isAlive 110 = false) := by
  refine ⟨by decide, ?_⟩
  exact (timer_batch_fires_in_deadline_order []
    [⟨110, .oneShot 1⟩, ⟨20, .oneShot 2⟩, ⟨60, .oneShot 3⟩] 110
    (by decide) (by decide)).2.2.2.1

/-- C8 counterexample: the spec formula for per-thread load disagrees with
the code at raw counter 1000 over a one-second (1_000_000 tick) interval:
the code stores 1 per-mille, the spec formula yields 1000. -/
theorem statistics_load_formula_counterexample :
    threadLoad 1000 1000000 = 1 ∧ specThreadLoad 1000 1000000 = 1000 ∧
    threadLoad 1000 1000000 ≠ specThreadLoad 1000 1000000 := by
  refine ⟨?_, ?_, ?_⟩ <;> decide

/-- C8 (amended): the stored per-thread load is
`min(1000, raw * 1_000_000 / (actual * 1000))` — equivalently
`min(1000, raw * 1000 / actual)` — and the two aggregates keep their two
distinct clamps: `usage_total = min(sum of non-idle loads, num_cpu * 1000)`
and `usage_per_cpu = min(sum of non-idle loads / num_cpu, 1000)`. -/
theorem statistics_load_and_aggregate_clamps (threads : List StatThread)
    (load0 actual numCpu : Nat) :
    threadLoad load0 actual = min 1000 (load0 * 1000000 / (actual * 1000)) ∧
    threadLoad load0 actual = min 1000 (load0 * 1000 / actual) ∧
    statUsage threads actual =
      ((threads.filter (fun t => t.priority ≠ .idle)).map
        (fun t => threadLoad t.load0 actual)).sum ∧
    statUsageTotal threads actual numCpu =
      min (((threads.filter (fun t => t.priority ≠ .idle)).map
        (fun t => threadLoad t.load0 actual)).sum) (numCpu * 1000) ∧
    statUsagePerCpu threads actual numCpu =
      min (((threads.filter (fun t => t.priority ≠ .idle)).map
        (fun t => threadLoad t.load0 actual)).sum / numCpu) 1000 := by
  have hdiv : load0 * 1000000 / (actual * 1000) = load0 * 1000 / actual := by
    rw [show load0 * 1000000 = 1000 * (load0 * 1000) by ring,
      show actual * 1000 = 1000 * actual by ring]
    exact Nat.mul_div_mul_left _ _ (by norm_num)
  have hfold : ∀ (l : List StatThread) (n : Nat),
      l.foldl (fun acc t => if t.priority = .idle then acc
        else acc + threadLoad t.load0 actual) n =
      n + ((l.filter (fun t => t.priority ≠ .idle)).map
        (fun t => threadLoad t.load0 actual)).sum := by
    intro l
    induction l with
    | nil => intro n; simp
    | cons t ts ih =>
        intro n
        by_cases hp : t.priority = .idle
        · simp [List.filter_cons, hp, ih]
        · simp only [List.foldl_cons, List.filter_cons, hp, ih,
            decide_not, if_neg hp]
          simp
          omega
  have h3 : statUsage threads actual =
      ((threads.filter (fun t => t.priority ≠ .idle)).map
        (fun t => threadLoad t.load0 actual)).sum := by
    rw [statUsage, hfold threads 0, Nat.zero_add]
  refine ⟨?_, ?_, h3, ?_, ?_⟩
  · rw [threadLoad, STAT_EXPECT, Nat.min_comm]
  · rw [threadLoad, STAT_EXPECT, Nat.min_comm, hdiv]
  · rw [statUsageTotal, h3]
  · rw [statUsagePerCpu, h3]

theorem digitChar_ne_dot (n : Nat) : Nat.digitChar n ≠ '.' := by
  rcases Nat.lt_or_ge n 16 with h | h
  · interval_cases n <;> decide
  · have hne : ∀ k : Nat, k < 16 → ¬ n = k := fun k hk => by omega
    have hstar : Nat.digitChar n = '*' := by
      unfold Nat.digitChar
      rw [if_neg (hne 0 (by norm_num)), if_neg (hne 1 (by norm_num)),
        if_neg (hne 2 (by norm_num)), if_neg (hne 3 (by norm_num)),
        if_neg (hne 4 (by norm_num)), if_neg (hne 5 (by norm_num)),
        if_neg (hne 6 (by norm_num)), if_neg (hne 7 (by norm_num)),
        if_neg (hne 8 (by norm_num)), if_neg (hne 9 (by norm_num)),
        if_neg (hne 10 (by norm_num)), if_neg (hne 11 (by norm_num)),
        if_neg (hne 12 (by norm_num)), if_neg (hne 13 (by norm_num)),
        if_neg (hne 14 (by norm_num)), if_neg (hne 15 (by norm_num))]
    rw [hstar]
    decide

theorem dot_not_mem_toDigitsCore (b : Nat) :
    ∀ (f n : Nat) (l : List Char), '.' ∉ l → '.' ∉ Nat.toDigitsCore b f n l
  | 0, n, l, hl => by simpa [Nat.toDigitsCore] using hl
  | f + 1, n, l, hl => by
    intro hmem
    simp only [Nat.toDigitsCore] at hmem
    by_cases hz : n / b = 0
    · rw [if_pos hz] at hmem
      rcases List.mem_cons.mp hmem with h | h
      · exact digitChar_ne_dot _ h.symm
      · exact hl h
    · rw [if_neg hz] at hmem
      refine dot_not_mem_toDigitsCore b f _ _ ?_ hmem
      intro hm
      rcases List.mem_cons.mp hm with h | h
      · exact digitChar_ne_dot _ h.symm
      · exact hl h

theorem dot_not_mem_repr (n : Nat) : '.' ∉ (Nat.repr n).toList := by
  unfold Nat.repr
  rw [List.toList_asString]
  exact dot_not_mem_toDigitsCore 10 (n + 1) n [] (by simp)

theorem dot_not_mem_natPad (w n : Nat) : '.' ∉ (natPad w n).toList := by
  intro hmem
  simp only [natPad] at hmem
  by_cases hlen : (toString n).length < w
  · rw [if_pos hlen] at hmem
    rw [show (String.mk (List.replicate (w - (toString n).length) ' ') ++
        toString n).toList =
        List.replicate (w - (toString n).length) ' ' ++
          (Nat.repr n).toList from rfl] at hmem
    rcases List.mem_append.mp hmem with h | h
    · exact absurd (List.eq_of_mem_replicate h) (by decide)
    · exact dot_not_mem_repr n h
  · rw [if_neg hlen] at hmem
    exact dot_not_mem_repr n hmem

/-- C9 counterexample: a process at 50.0% CPU (clamped load 500 per-mille on
one cpu) is printed as the width-4 integer "   50", with no decimal point,
although the claim promises the NN.N form for every load below 100%. -/
theorem print_statistics_cpu_field_counterexample :
    processCpuField 500 1 = (" " ++ "  50" : String) ∧
    '.' ∉ (processCpuField 500 1).toList := by
  exact ⟨by decide, by decide⟩

/-- C9 (amended): the %CPU field uses the `NN.N` form — with the decimal
point — exactly for clamped loads whose whole-percent part `load / 10` is
below 10 (i.e. below 10.0%), and a right-aligned width-4 integer with no
decimal point (the whole-percent value) for `load / 10 >= 10` (10.0% or
more). -/
theorem print_statistics_cpu_field_format (load numCpu : Nat) :
    (min load (1000 * numCpu) / 10 < 10 →
      processCpuField load numCpu =
        " " ++ natPad 2 (min load (1000 * numCpu) / 10) ++ "." ++
          natPad 1 (min load (1000 * numCpu) % 10) ∧
      '.' ∈ (processCpuField load numCpu).toList) ∧
    (10 ≤ min load (1000 * numCpu) / 10 →
      processCpuField load numCpu =
        " " ++ natPad 4 (min load (1000 * numCpu) / 10) ∧
      '.' ∉ (processCpuField load numCpu).toList) := by
  constructor
  · intro h
    have heq : processCpuField load numCpu =
        " " ++ natPad 2 (min load (1000 * numCpu) / 10) ++ "." ++
          natPad 1 (min load (1000 * numCpu) % 10) := by
      rw [processCpuField, formatCpuLoad]
      simp [Nat.not_le.mpr h]
    refine ⟨heq, ?_⟩
    rw [heq]
    rw [show (" " ++ natPad 2 (min load (1000 * numCpu) / 10) ++ "." ++
        natPad 1 (min load (1000 * numCpu) % 10)).toList =
        (" " ++ natPad 2 (min load (1000 * numCpu) / 10)).toList ++
          ['.'] ++ (natPad 1 (min load (1000 * numCpu) % 10)).toList
        from rfl]
    simp
  · intro h
    have heq : processCpuField load numCpu =
        " " ++ natPad 4 (min load (1000 * numCpu) / 10) := by
      rw [processCpuField, formatCpuLoad]
      simp only [if_pos h]
    refine ⟨heq, ?_⟩
    rw [heq]
    intro hmem
    rw [show (" " ++ natPad 4 (min load (1000 * numCpu) / 10)).toList =
        [' '] ++ (natPad 4 (min load (1000 * numCpu) / 10)).toList
        from rfl] at hmem
    rcases List.mem_append.mp hmem with hmem | hmem
    · exact absurd (List.mem_singleton.mp hmem) (by decide)
    · exact dot_not_mem_natPad _ _ hmem

/-- Witness for C9 (amended) at concrete loads: 9.5% keeps the decimal
form, 10.0% switches to the integer form. -/
theorem print_statistics_cpu_field_format_witness :
    (processCpuField 95 1 =
        " " ++ natPad 2 (min 95 (1000 * 1) / 10) ++ "." ++
          natPad 1 (min 95 (1000 * 1) % 10) ∧
      '.' ∈ (processCpuField 95 1).toList) ∧
    (processCpuField 100 1 =
        " " ++ natPad 4 (min 100 (1000 * 1) / 10) ∧
      '.' ∉ (processCpuField 100 1).toList) :=
  ⟨(print_statistics_cpu_field_format 95 1).1 (by decide),
    (print_statistics_cpu_field_format 100 1).2 (by decide)⟩

end Maystorm
